import Mathlib

/-!
Verification of the csvdb.js query engine (src/src/csvdb.ts) against its
natural-language specification.  The TypeScript source is shallowly embedded:
JavaScript numbers are modelled exactly as extended rationals (`JNum`), row
objects as insertion-ordered association lists, generators as list-returning
functions, and thrown errors as `Except String`.
-/

namespace Csvdb

/-- Model of a JavaScript number: an exact rational, `NaN`, or a signed
infinity.  (IEEE doubles are idealised as exact rationals; `-0` is identified
with `0`.) -/
inductive JNum where
  | nan
  | negInf
  | posInf
  | fin (q : ℚ)
deriving DecidableEq, Repr

namespace JNum

/-- JavaScript addition: `NaN` propagates, `∞ + (-∞) = NaN`. -/
def add : JNum → JNum → JNum
  | nan, _ => nan
  | _, nan => nan
  | posInf, negInf => nan
  | negInf, posInf => nan
  | posInf, _ => posInf
  | _, posInf => posInf
  | negInf, _ => negInf
  | _, negInf => negInf
  | fin a, fin b => fin (a + b)

/-- JavaScript unary negation. -/
def neg : JNum → JNum
  | nan => nan
  | negInf => posInf
  | posInf => negInf
  | fin a => fin (-a)

/-- JavaScript subtraction. -/
def sub (a b : JNum) : JNum := add a (neg b)

/-- JavaScript multiplication: `NaN` propagates, `±∞ * 0 = NaN`. -/
def mul : JNum → JNum → JNum
  | nan, _ => nan
  | _, nan => nan
  | posInf, posInf => posInf
  | posInf, negInf => negInf
  | negInf, posInf => negInf
  | negInf, negInf => posInf
  | posInf, fin b => if b = 0 then nan else if 0 < b then posInf else negInf
  | fin a, posInf => if a = 0 then nan else if 0 < a then posInf else negInf
  | negInf, fin b => if b = 0 then nan else if 0 < b then negInf else posInf
  | fin a, negInf => if a = 0 then nan else if 0 < a then negInf else posInf
  | fin a, fin b => fin (a * b)

/-- JavaScript division (`-0` identified with `0`, so `x/0` keeps `x`'s sign). -/
def div : JNum → JNum → JNum
  | nan, _ => nan
  | _, nan => nan
  | posInf, posInf => nan
  | posInf, negInf => nan
  | negInf, posInf => nan
  | negInf, negInf => nan
  | posInf, fin b => if 0 ≤ b then posInf else negInf
  | negInf, fin b => if 0 ≤ b then negInf else posInf
  | fin _, posInf => fin 0
  | fin _, negInf => fin 0
  | fin a, fin b =>
    if b = 0 then (if a = 0 then nan else if 0 < a then posInf else negInf)
    else fin (a / b)

/-- JavaScript `<` comparison (`false` whenever `NaN` is involved). -/
def lt : JNum → JNum → Bool
  | nan, _ => false
  | _, nan => false
  | negInf, negInf => false
  | negInf, _ => true
  | _, negInf => false
  | posInf, _ => false
  | fin _, posInf => true
  | fin a, fin b => a < b

/-- JavaScript `<=` comparison (`false` whenever `NaN` is involved). -/
def le : JNum → JNum → Bool
  | nan, _ => false
  | _, nan => false
  | negInf, _ => true
  | _, negInf => false
  | _, posInf => true
  | posInf, fin _ => false
  | fin a, fin b => a ≤ b

/-- One step of `Math.max(...values)`: `NaN` contaminates, otherwise max. -/
def maxStep (a b : JNum) : JNum :=
  match a, b with
  | nan, _ => nan
  | _, nan => nan
  | _, _ => if lt a b then b else a

/-- One step of `Math.min(...values)`: `NaN` contaminates, otherwise min. -/
def minStep (a b : JNum) : JNum :=
  match a, b with
  | nan, _ => nan
  | _, nan => nan
  | _, _ => if lt b a then b else a

/-- `Math.floor` on the number model. -/
def floor : JNum → JNum
  | nan => nan
  | negInf => negInf
  | posInf => posInf
  | fin q => fin (Rat.floor q : ℤ)

/-- Exact rational square root: `some r` when `q` is a perfect rational
square (`r ≥ 0`, `r * r = q`), else `none`. -/
def ratSqrt? (q : ℚ) : Option ℚ :=
  if q < 0 then none else
  let sn := Nat.sqrt q.num.toNat
  let sd := Nat.sqrt q.den
  if sn * sn = q.num.toNat ∧ sd * sd = q.den then some ((sn : ℚ) / (sd : ℚ))
  else none

/-- `Math.sqrt`, modelled exactly where the result is rational.  Irrational
results are not representable in the exact-rational value model and are mapped
to `nan`; no verified claim depends on an irrational square root (the
statistical functions are additionally modelled over `ℝ` below). -/
def sqrt : JNum → JNum
  | nan => nan
  | negInf => nan
  | posInf => posInf
  | fin q => match ratSqrt? q with
    | some r => fin r
    | none => nan

end JNum

-- Model of a JavaScript runtime value as stored in row objects.  Arrays are
-- represented with a mutually-defined list type so that decidable equality is
-- derivable.
mutual
/-- A JavaScript runtime value (see the comment above). -/
inductive Value where
  | undefined
  | null
  | boolean (b : Bool)
  | num (j : JNum)
  | str (s : String)
  | arr (vs : ValueList)
/-- A list of JavaScript values, mutually defined with `Value`. -/
inductive ValueList where
  | nil
  | cons (hd : Value) (tl : ValueList)
end

deriving instance DecidableEq for Value
deriving instance DecidableEq for ValueList

/-- Package a Lean list of values as an array value. -/
def ValueList.ofList : List Value → ValueList
  | [] => ValueList.nil
  | v :: vs => ValueList.cons v (ValueList.ofList vs)

namespace Value

/-- JavaScript strict equality `===`.  `NaN === NaN` is false.  Arrays are
compared by reference in JavaScript; distinct array values are modelled as
unequal (structural equality over-approximates shared references, which no
verified claim depends on). -/
def strictEq : Value → Value → Bool
  | undefined, undefined => true
  | null, null => true
  | boolean a, boolean b => a == b
  | num JNum.nan, num _ => false
  | num _, num JNum.nan => false
  | num a, num b => a == b
  | str a, str b => a == b
  | arr a, arr b => a == b
  | _, _ => false

/-- JavaScript truthiness test: `undefined`, `null`, `false`, `0`, `NaN` and
`""` are falsy. -/
def falsy : Value → Bool
  | undefined => true
  | null => true
  | boolean b => !b
  | num (JNum.fin q) => q = 0
  | num JNum.nan => true
  | num _ => false
  | str s => s = ""
  | arr _ => false

/-- The `x || null` idiom used by the position functions. -/
def orNull (v : Value) : Value := if v.falsy then null else v

end Value

/-- A row object: an insertion-ordered association list from field name to
value (JavaScript object property order). -/
abbrev Row : Type := List (String × Value)

namespace Row

/-- Property read `row[key]`: `undefined` when the key is absent. -/
def lookup (r : Row) (k : String) : Value :=
  match List.find? (fun p => p.1 = k) r with
  | some p => p.2
  | none => Value.undefined

/-- `Object.keys(row)`. -/
def keys (r : Row) : List String := List.map Prod.fst r

/-- Property write `row[key] = v`: overwrites in place, or appends. -/
def setKey (r : Row) (k : String) (v : Value) : Row :=
  if (keys r).contains k then
    List.map (fun p => if p.1 = k then (p.1, v) else p) r
  else r ++ [(k, v)]

end Row

/-- `isSame` (csvdb.ts:1254): shallow structural row equality — equal key
counts and strict equality of `rowA`'s values against `rowB`'s. -/
def isSame (rowA rowB : Row) : Bool :=
  (Row.keys rowA).length == (Row.keys rowB).length &&
  (Row.keys rowA).all (fun k => Value.strictEq (Row.lookup rowA k) (Row.lookup rowB k))

/-- `isDistinct` (csvdb.ts:1250): `row` matches nothing in `rows`. -/
def isDistinct (rows : List Row) (row : Row) : Bool :=
  rows.all (fun rowB => !isSame row rowB)

/-- `except` generator (csvdb.ts:1263): seed the cache with `B`; yield each row
of `A` that is distinct from the cache, then add it to the cache. -/
def exceptLoop (cache : List Row) : List Row → List Row
  | [] => []
  | r :: rest =>
    if !isDistinct cache r then exceptLoop cache rest
    else r :: exceptLoop (cache ++ [r]) rest

/-- `except(A, B)` (csvdb.ts:1263). -/
def exceptFn (resultsA resultsB : List Row) : List Row :=
  exceptLoop resultsB resultsA

/-- `intersect(A, B)` (csvdb.ts:1277): the cache holds `B` and is never
mutated; yield each row of `A` that matches the cache. -/
def intersectFn (resultsA resultsB : List Row) : List Row :=
  match resultsA with
  | [] => []
  | r :: rest =>
    if isDistinct resultsB r then intersectFn rest resultsB
    else r :: intersectFn rest resultsB

/-- `unionAll` generator (csvdb.ts:1292). -/
def unionAllFn (resultsA resultsB : List Row) : List Row :=
  resultsA ++ resultsB

/-- Numeric value of a digit run. -/
def digitsVal (ds : List Char) : ℕ :=
  ds.foldl (fun a c => a * 10 + (c.toNat - 48)) 0

/-- Parse an unsigned decimal literal (`123`, `1.5`, `.5`, `2.`), exactly the
forms relevant to this code base; `none` when the characters are not such a
literal. -/
def parseDecimal (cs : List Char) : Option ℚ :=
  let ip := cs.takeWhile Char.isDigit
  let r1 := cs.dropWhile Char.isDigit
  match r1 with
  | [] => if ip.isEmpty then none else some (digitsVal ip : ℚ)
  | '.' :: r2 =>
    let fp := r2.takeWhile Char.isDigit
    let r3 := r2.dropWhile Char.isDigit
    if r3.isEmpty && !(ip.isEmpty && fp.isEmpty) then
      some ((digitsVal ip : ℚ) + (digitsVal fp : ℚ) / ((10 : ℚ) ^ fp.length))
    else none
  | _ => none

/-- The JavaScript `ToNumber` coercion on strings: trim, empty string is `0`,
signed infinities, otherwise a signed decimal literal, else `NaN`.
(Hexadecimal and exponent literal forms never occur in this code base and are
mapped to `NaN`.) -/
def jsStringToNumber (s : String) : JNum :=
  let t := s.trim
  if t = "" then .fin 0
  else if t = "Infinity" || t = "+Infinity" then .posInf
  else if t = "-Infinity" then .negInf
  else
    match t.data with
    | '-' :: cs => match parseDecimal cs with | some q => .fin (-q) | none => .nan
    | '+' :: cs => match parseDecimal cs with | some q => .fin q | none => .nan
    | cs => match parseDecimal cs with | some q => .fin q | none => .nan

/-- Decimal string form of an exact rational (integers render exactly as in
JavaScript; non-integers are rendered as a fraction — only `LISTAGG`/`JSON`
output formatting depends on this and no verified claim does). -/
def ratToString (q : ℚ) : String :=
  if q.den = 1 then toString q.num
  else toString q.num ++ "/" ++ toString q.den

mutual
/-- JavaScript `String(v)` coercion. -/
def jsToString : Value → String
  | .undefined => "undefined"
  | .null => "null"
  | .boolean b => if b then "true" else "false"
  | .num .nan => "NaN"
  | .num .posInf => "Infinity"
  | .num .negInf => "-Infinity"
  | .num (.fin q) => ratToString q
  | .str s => s
  | .arr vs => jsToStringList vs
/-- JavaScript array-to-string: elements joined with `,`, where `null` and
`undefined` elements render as the empty string. -/
def jsToStringList : ValueList → String
  | .nil => ""
  | .cons v .nil => jsToStringElem v
  | .cons v tl => jsToStringElem v ++ "," ++ jsToStringList tl
/-- One element of a joined array. -/
def jsToStringElem : Value → String
  | .undefined => ""
  | .null => ""
  | v => jsToString v
end

/-- The JavaScript unary `+` (`ToNumber`) coercion. -/
def toNumber (v : Value) : JNum :=
  match v with
  | .undefined => .nan
  | .null => .fin 0
  | .boolean b => .fin (if b then 1 else 0)
  | .num j => j
  | .str s => jsStringToNumber s
  | .arr vs => jsStringToNumber (jsToString (.arr vs))

/-- Character class `[A-Z_]` of the builtin-call regular expression
(csvdb.ts:995). -/
def isNameChar (c : Char) : Bool := ('A' ≤ c && c ≤ 'Z') || c = '_'

/-- Character class `[\w\d_]` (word characters). -/
def isWordChar (c : Char) : Bool := c.isAlpha || c.isDigit || c = '_'

/-- Regex whitespace `\s` (the forms that can occur here). -/
def isSpaceChar (c : Char) : Bool := c = ' ' || c = '\t' || c = '\n' || c = '\r'

/-- `String.prototype.split(",")`: always at least one (possibly empty)
piece. -/
def splitCommas : List Char → List String
  | [] => [""]
  | c :: rest =>
    match splitCommas rest with
    | s :: ss => if c = ',' then "" :: s :: ss else String.mk (c :: s.data) :: ss
    | [] => []

/-- The optional `(?:\s+OVER\s+([\w\d_]+|\(\)))` tail of the builtin-call
regular expression: `some window` when the characters match, else `none`. -/
def parseOverPart (cs : List Char) : Option String :=
  let ws1 := cs.takeWhile isSpaceChar
  let r1 := cs.dropWhile isSpaceChar
  if ws1.isEmpty then none else
  match r1 with
  | 'O' :: 'V' :: 'E' :: 'R' :: r2 =>
    let ws2 := r2.takeWhile isSpaceChar
    let r3 := r2.dropWhile isSpaceChar
    if ws2.isEmpty then none else
    match r3 with
    | ['(', ')'] => some "()"
    | cs3 => if !cs3.isEmpty && cs3.all isWordChar then some (String.mk cs3) else none
  | _ => none

/-- The builtin-call regular expression
`^([A-Z_]+)\(([^)]*)\)(?:\s+OVER\s+([\w\d_]+|\(\)))?$` (csvdb.ts:995):
returns `(fnName, args, windowName?)` on a match. -/
def parseCall (s : String) : Option (String × List String × Option String) :=
  let cs := s.data
  let name := cs.takeWhile isNameChar
  let r1 := cs.dropWhile isNameChar
  if name.isEmpty then none else
  match r1 with
  | '(' :: r2 =>
    let args := r2.takeWhile (fun c => c ≠ ')')
    let r3 := r2.dropWhile (fun c => c ≠ ')')
    match r3 with
    | ')' :: r4 =>
      let argList := splitCommas args
      match r4 with
      | [] => some (String.mk name, argList, none)
      | _ =>
        match parseOverPart r4 with
        | some w => some (String.mk name, argList, some w)
        | none => none
    | _ => none
  | _ => none

/-- `isAggregate` (csvdb.ts:1222): the aggregate-detection regular expression
`^[A-Z]+\([^)]*\)$` — the name class has no underscore. -/
def isAggregate (col : String) : Bool :=
  let cs := col.data
  let name := cs.takeWhile (fun c => 'A' ≤ c && c ≤ 'Z')
  let r1 := cs.dropWhile (fun c => 'A' ≤ c && c ≤ 'Z')
  !name.isEmpty &&
  match r1 with
  | '(' :: r2 => r2.dropWhile (fun c => c ≠ ')') == [')']
  | _ => false

/-- `String.prototype.endsWith`. -/
def jsEndsWith (s suffix : String) : Bool :=
  suffix.data.isSuffixOf s.data

/-- `Array.prototype.indexOf`: first index (by JavaScript reference equality,
modelled structurally) or `-1`. -/
def jsIndexOf {α : Type} [DecidableEq α] : List α → α → Int
  | [], _ => -1
  | r :: rest, x =>
    if r = x then 0
    else
      let k := jsIndexOf rest x
      if k < 0 then -1 else k + 1

/-- `indexOf` against a possibly-`undefined` source row. -/
def jsIndexOfOpt (rows : List Row) (src : Option Row) : Int :=
  match src with
  | some r => jsIndexOf rows r
  | none => -1

/-- Insert an element into an already-processed prefix: it goes before the
first element it compares strictly less than (a stable comparator sort). -/
def sortInsert {α : Type} (before : α → α → Bool) (x : α) : List α → List α
  | [] => [x]
  | y :: ys => if before x y then x :: y :: ys else y :: sortInsert before x ys

/-- `Array.prototype.sort(cmp)` modelled as a stable sort: `a` precedes `b`
exactly when `cmp a b < 0` (ties keep source order, as required of a stable
sort). -/
def jsSort {α : Type} (cmp : α → α → JNum) (l : List α) : List α :=
  l.foldl (fun acc x => sortInsert (fun a b => JNum.lt (cmp a b) (.fin 0)) x acc) []

/-- `Array.prototype.slice` index resolution (`ToIntegerOrInfinity` plus
clamping). -/
def sliceIdx (j : JNum) (len : ℕ) : ℕ :=
  match j with
  | .negInf => 0
  | .nan => 0
  | .posInf => len
  | .fin q =>
    let t : ℤ := if 0 ≤ q then Rat.floor q else -(Rat.floor (-q))
    if t < 0 then ((len : ℤ) + t).toNat else min t.toNat len

/-- `l.slice(s, e)`. -/
def jsSlice {α : Type} (l : List α) (s e : JNum) : List α :=
  (l.take (sliceIdx e l.length)).drop (sliceIdx s l.length)

/-- The `partitionBy` member of a window specification: a field name or a
discriminator function. -/
inductive PartitionBy where
  | field (k : String)
  | func (f : Row → Value)

/-- The `orderBy` member of a window specification: a (possibly
sign-prefixed) field name or a comparator function. -/
inductive OrderBySpec where
  | field (k : String)
  | func (f : Row → Row → JNum)

/-- A `framing` endpoint: a number or one of the sentinel strings. -/
inductive FramingBound where
  | num (n : Int)
  | str (s : String)

/-- `WindowSpec` (types.d.ts): all members optional. -/
structure WindowSpec where
  partitionBy : Option PartitionBy := none
  orderBy : Option OrderBySpec := none
  framing : Option (String × FramingBound × FramingBound) := none

/-- `getOrderBy` (csvdb.ts:1173): resolve the window's `orderBy` into a
comparator.  A `+`-prefixed field name compares numerically; a plain field
name via `localeCompare` (modelled as total code-point comparison of the
string forms); with no `orderBy` the source returns `undefined` — modelled as
a constant-`NaN` comparator, and every call site guards with `orderByCheck`
first. -/
def getOrderBy (ws : WindowSpec) : Row → Row → JNum :=
  match ws.orderBy with
  | some (.field k) =>
    match k.data with
    | '+' :: rest =>
      let f := String.mk rest
      fun rowA rowB => JNum.sub (toNumber (Row.lookup rowA f)) (toNumber (Row.lookup rowB f))
    | _ =>
      fun rowA rowB =>
        .fin (match compare (jsToString (Row.lookup rowA k)) (jsToString (Row.lookup rowB k)) with
              | .lt => -1
              | .eq => 0
              | .gt => 1)
  | some (.func f) => f
  | none => fun _ _ => .nan

/-- `orderByCheck` (csvdb.ts:1190): `!windowSpec?.orderBy` throws
`ORDER BY required`.  An empty-string field name is falsy in JavaScript and
also fails the check. -/
def orderByCheck (ws : WindowSpec) (fnName : String) : Except String Unit :=
  match ws.orderBy with
  | none => .error ("ORDER BY required: " ++ fnName)
  | some (.field k) => if k = "" then .error ("ORDER BY required: " ++ fnName) else .ok ()
  | some (.func _) => .ok ()

/-- Resolve the `partitionBy` member into a discriminator function. -/
def partitionFnOf : PartitionBy → (Row → Value)
  | .field k => fun row => Row.lookup row k
  | .func f => f

/-- Resolve the framing bounds (defaults `[-∞, 0]`); any unit other than
`ROWS` is a thrown configuration error.  Unrecognised bound strings leave the
corresponding default in place, as in the source's if/else chains. -/
def frameBounds : Option (String × FramingBound × FramingBound) → Except String (JNum × JNum)
  | none => .ok (.negInf, .fin 0)
  | some (unit, s, e) =>
    if unit ≠ "ROWS" then .error ("Window unit " ++ unit)
    else
      let fs : JNum := match s with
        | .num n => .fin (n : ℚ)
        | .str v => if v = "UNBOUNDED PRECEDING" then .negInf
                    else if v = "CURRENT ROW" then .fin 0 else .negInf
      let fe : JNum := match e with
        | .num n => .fin (n : ℚ)
        | .str v => if v = "UNBOUNDED FOLLOWING" then .posInf
                    else if v = "CURRENT ROW" then .fin 0 else .fin 0
      .ok (fs, fe)

/-- `applyWindow` (csvdb.ts:1117): partition filter, then — only when
`orderBy` is present — copy-sort and slice out the frame around the source
row's position.  The source row is `none` when the single aggregate group is
empty (JavaScript `undefined`). -/
def applyWindow (rows : List Row) (ws : WindowSpec) (src : Option Row) :
    Except String (List Row) :=
  let rows :=
    match ws.partitionBy with
    | none => rows
    | some pb =>
      let f := partitionFnOf pb
      let sympatheticValue := match src with | some r => f r | none => Value.undefined
      rows.filter (fun row => Value.strictEq (f row) sympatheticValue)
  match ws.orderBy with
  | none => .ok rows
  | some _ => do
    let cmp := getOrderBy ws
    let sorted := jsSort cmp rows
    let (framingStart, framingEnd) ← frameBounds ws.framing
    let index : Int := jsIndexOfOpt sorted src
    let startIndex := JNum.maxStep (JNum.add (.fin (index : ℚ)) framingStart) (.fin 0)
    let endIndex := JNum.add (JNum.add (.fin (index : ℚ)) framingEnd) (.fin 1)
    .ok (jsSlice sorted startIndex endIndex)

/-- `SUM` (csvdb.ts:1305): reduce with `total + +v` from `0`. -/
def SUM (values : List Value) : JNum :=
  values.foldl (fun total v => JNum.add total (toNumber v)) (.fin 0)

/-- The keys of `AGGREGATE_FUNCTIONS` (csvdb.ts:1308). -/
def aggregateNames : List String :=
  ["SUM", "AVG", "MAX", "MIN", "COUNT", "LISTAGG", "ARRAY", "JSON", "ANY", "RANDOM"]

mutual
/-- `JSON.stringify` on a value (string escaping omitted — no verified claim
formats strings containing quotes). -/
def jsonOfValue : Value → String
  | .undefined => "null"
  | .null => "null"
  | .boolean b => if b then "true" else "false"
  | .num .nan => "null"
  | .num .posInf => "null"
  | .num .negInf => "null"
  | .num (.fin q) => ratToString q
  | .str s => "\"" ++ s ++ "\""
  | .arr vs => "[" ++ jsonOfList vs ++ "]"
/-- `JSON.stringify` of array elements, comma separated. -/
def jsonOfList : ValueList → String
  | .nil => ""
  | .cons v .nil => jsonOfValue v
  | .cons v tl => jsonOfValue v ++ "," ++ jsonOfList tl
end

/-- `AGGREGATE_FUNCTIONS` (csvdb.ts:1308), dispatched by name.  `MAX`/`MIN`
are `Math.max(...values)` / `Math.min(...values)`: folds from `-∞` / `+∞`, so
the empty list yields the infinite sentinel.  `RANDOM` picks a
`Math.random()` index; the choice is modelled as the first element (no
verified claim depends on it). -/
def evalAggregate (fnName : String) (values : List Value) : Value :=
  if fnName = "SUM" then .num (SUM values)
  else if fnName = "AVG" then .num (JNum.div (SUM values) (.fin (values.length : ℚ)))
  else if fnName = "MAX" then .num (values.foldl (fun a v => JNum.maxStep a (toNumber v)) .negInf)
  else if fnName = "MIN" then .num (values.foldl (fun a v => JNum.minStep a (toNumber v)) .posInf)
  else if fnName = "COUNT" then .num (.fin (values.length : ℚ))
  else if fnName = "LISTAGG" then .str (String.intercalate "," (values.map jsToStringElem))
  else if fnName = "ARRAY" then .arr (ValueList.ofList values)
  else if fnName = "JSON" then .str ("[" ++ jsonOfList (ValueList.ofList values) ++ "]")
  else if fnName = "ANY" then values.headD .undefined
  else if fnName = "RANDOM" then values.headD .undefined
  else .undefined

/-- The keys of `WINDOW_FUNCTIONS` (csvdb.ts:1321). -/
def windowFnNames : List String :=
  ["RANK", "DENSE_RANK", "NTILE", "PERCENT_RANK", "CUME_DIST",
   "PERCENTILE_DIST", "PERCENTILE_CONT"]

/-- The backward tie scan shared by `RANK` and `PERCENT_RANK`
(csvdb.ts:1332–1338): starting at the source row's index, step left while the
comparator against the source row returns `0`; the result is the final value
of the loop variable (`-1` when the scan runs off the front). -/
def tieScanBack {α : Type} [Inhabited α] (cmp : α → α → JNum) (src : α)
    (rows : List α) : ℕ → Int
  | 0 => if cmp (rows.getD 0 default) src ≠ .fin 0 then 0 else -1
  | i + 1 =>
    if cmp (rows.getD (i + 1) default) src ≠ .fin 0 then (i : Int) + 1
    else tieScanBack cmp src rows i

/-- The boundary index computed by `RANK`'s loop, including the
`indexOf = -1` and `undefined`-source degenerate cases (the loop body never
runs and the loop variable stays `-1`). -/
def rankBoundary {α : Type} [Inhabited α] [DecidableEq α] (src : Option α)
    (rows : List α) (cmp : α → α → JNum) : Int :=
  match src with
  | none => -1
  | some s =>
    let index := jsIndexOf rows s
    if index < 0 then -1 else tieScanBack cmp s rows index.toNat

/-- `WINDOW_FUNCTIONS.RANK` (csvdb.ts:1329): boundary index + 2. -/
def RANK {α : Type} [Inhabited α] [DecidableEq α] (src : Option α)
    (rows : List α) (cmp : α → α → JNum) : Int :=
  rankBoundary src rows cmp + 2

/-- The tie counter of `DENSE_RANK` (csvdb.ts:1346): the number of positions
`i ∈ [1, index]` where `rows[i-1]` and `rows[i]` compare equal. -/
def denseCount {α : Type} [Inhabited α] (cmp : α → α → JNum) (rows : List α) : ℕ → ℕ
  | 0 => 0
  | i + 1 =>
    denseCount cmp rows i +
      (if cmp (rows.getD i default) (rows.getD (i + 1) default) = .fin 0 then 1 else 0)

/-- `WINDOW_FUNCTIONS.DENSE_RANK` (csvdb.ts:1341). -/
def DENSE_RANK {α : Type} [Inhabited α] [DecidableEq α] (src : Option α)
    (rows : List α) (cmp : α → α → JNum) : Int :=
  match src with
  | none => 0
  | some s =>
    let index := jsIndexOf rows s
    if index < 0 then 0
    else (index - (denseCount cmp rows index.toNat : ℤ)) + 1

/-- The forward tie scan of `CUME_DIST` (csvdb.ts:1378): step right from `i`
while in bounds and the comparator against the source row returns `0`. -/
def tieScanFwd {α : Type} [Inhabited α] (cmp : α → α → JNum) (src : α)
    (rows : List α) (i : ℕ) : ℕ :=
  if i < rows.length then
    if cmp (rows.getD i default) src ≠ .fin 0 then i
    else tieScanFwd cmp src rows (i + 1)
  else i
termination_by rows.length - i

/-- The tie-skipping inner loop of `findPercentile` (csvdb.ts:1427): advance
`j` while in bounds and `rows[i][k]` and `rows[j][k]` are strictly equal. -/
def skipTies (rows : List Row) (k : String) (i j : ℕ) : ℕ :=
  if j < rows.length then
    if Value.strictEq (Row.lookup (rows.getD i default) k)
        (Row.lookup (rows.getD j default) k)
    then skipTies rows k i (j + 1)
    else j
  else j
termination_by rows.length - j

/-- The scan of `findPercentile` (csvdb.ts:1426): cumulative fractions
`p = j / rows.length` per maximal tie run; return the first position where
`p ≥ percentile`, with the interpolation parameter
`x = (percentile - prevP) / (p - prevP)`. -/
def findPercentileLoop (rows : List Row) (k : String) (percentile : JNum)
    (i : ℕ) (prevP : JNum) : Option (ℕ × String × JNum) :=
  if i < rows.length then
    let j := skipTies rows k i (i + 1)
    let p : ℚ := (j : ℚ) / (rows.length : ℚ)
    if JNum.le percentile (.fin p) then
      some (i, k, JNum.div (JNum.sub percentile prevP) (JNum.sub (.fin p) prevP))
    else findPercentileLoop rows k percentile (i + 1) (.fin p)
  else none
termination_by rows.length - i

/-- `findPercentile` (csvdb.ts:1410): requires a string `orderBy` (else a
thrown error), strips a `+` prefix, then scans. -/
def findPercentile (rows : List Row) (percentile : JNum) (ws : WindowSpec) :
    Except String (Option (ℕ × String × JNum)) :=
  match ws.orderBy with
  | some (.field k0) =>
    let k := match k0.data with | '+' :: rest => String.mk rest | _ => k0
    .ok (findPercentileLoop rows k percentile 0 (.fin 0))
  | _ => .error "ORDER BY must be string"

/-- `WINDOW_FUNCTIONS` (csvdb.ts:1321), dispatched by name.
`PERCENTILE_CONT` with boundary index `0` reads a property of
`rows[-1] = undefined`, a thrown `TypeError` in JavaScript. -/
def evalWindowFn (fnName : String) (src : Option Row) (rows : List Row)
    (args : List String) (ws : WindowSpec) : Except String Value :=
  let cmp := getOrderBy ws
  if fnName = "RANK" then .ok (.num (.fin (RANK src rows cmp : ℤ)))
  else if fnName = "DENSE_RANK" then .ok (.num (.fin (DENSE_RANK src rows cmp : ℤ)))
  else if fnName = "NTILE" then
    let index := jsIndexOfOpt rows src
    let arg0 : JNum := match args.head? with | some s => jsStringToNumber s | none => .nan
    .ok (.num (JNum.add
      (JNum.floor (JNum.div (JNum.mul arg0 (.fin (index : ℚ))) (.fin (rows.length : ℚ))))
      (.fin 1)))
  else if fnName = "PERCENT_RANK" then
    if rows.length = 1 then .ok (.num (.fin 0))
    else
      .ok (.num (JNum.div (.fin ((rankBoundary src rows cmp : ℤ) + 1))
        (.fin ((rows.length : ℚ) - 1))))
  else if fnName = "CUME_DIST" then
    let index := jsIndexOfOpt rows src
    let stop := match src with
      | some s => tieScanFwd cmp s rows (index + 1).toNat
      | none => (index + 1).toNat
    .ok (.num (JNum.div (.fin (stop : ℚ)) (.fin (rows.length : ℚ))))
  else if fnName = "PERCENTILE_DIST" then do
    let arg0 : JNum := match args.head? with | some s => jsStringToNumber s | none => .nan
    let result ← findPercentile rows arg0 ws
    match result with
    | some (index, key, _) => .ok (Row.lookup (rows.getD index default) key)
    | none => .ok .null
  else if fnName = "PERCENTILE_CONT" then do
    let arg0 : JNum := match args.head? with | some s => jsStringToNumber s | none => .nan
    let result ← findPercentile rows arg0 ws
    match result with
    | some (index, key, x) =>
      if index = 0 then .error "TypeError: cannot read properties of undefined"
      else
        let a := toNumber (Row.lookup (rows.getD (index - 1) default) key)
        let b := toNumber (Row.lookup (rows.getD index default) key)
        .ok (.num (JNum.add (JNum.mul x (JNum.sub b a)) a))
    | none => .ok .null
  else .error ("Bad Func: " ++ fnName)

/-- The keys of `POSITION_FUNCTIONS` (csvdb.ts:1445). -/
def positionFnNames : List String :=
  ["LEAD", "LAG", "FIRST_VALUE", "LAST_VALUE", "NTH_VALUE"]

/-- JavaScript `values[j]` for a computed numeric index: `undefined` unless
`j` is an integer within bounds. -/
def jsGetIdxJ (values : List Value) (j : JNum) : Value :=
  match j with
  | .fin q =>
    if q.den = 1 ∧ 0 ≤ q.num ∧ q.num < (values.length : ℤ) then
      values.getD q.num.toNat .undefined
    else .undefined
  | _ => .undefined

/-- The optional second argument of `LEAD`/`LAG`: `+args[1]` when
`args.length > 1`, else the default offset `1`. -/
def leadLagDelta (args : List String) : JNum :=
  if args.length > 1 then
    match args.get? 1 with
    | some s => jsStringToNumber s
    | none => .nan
  else .fin 1

/-- `POSITION_FUNCTIONS` (csvdb.ts:1445), dispatched by name.  `LEAD`, `LAG`
and `NTH_VALUE` post-process with `|| null`; `FIRST_VALUE` and `LAST_VALUE`
return the raw indexed value. -/
def evalPositionFn (fnName : String) (src : Option Row) (rows : List Row)
    (args : List String) (values : List Value) : Value :=
  if fnName = "LEAD" then
    let index := jsIndexOfOpt rows src
    Value.orNull (jsGetIdxJ values (JNum.add (.fin (index : ℚ)) (leadLagDelta args)))
  else if fnName = "LAG" then
    let index := jsIndexOfOpt rows src
    Value.orNull (jsGetIdxJ values (JNum.sub (.fin (index : ℚ)) (leadLagDelta args)))
  else if fnName = "FIRST_VALUE" then
    jsGetIdxJ values (.fin 0)
  else if fnName = "LAST_VALUE" then
    jsGetIdxJ values (.fin ((values.length : ℚ) - 1))
  else if fnName = "NTH_VALUE" then
    let arg1 : JNum := match args.get? 1 with | some s => jsStringToNumber s | none => .nan
    Value.orNull (jsGetIdxJ values (JNum.sub arg1 (.fin 1)))
  else .undefined

/-- `VARIANCE_SUM` (csvdb.ts:1476): two passes — mean, then the sum of
squared deviations — but the returned value is `Math.sqrt(sum / n)`, i.e. the
population standard deviation, not a sum.  (`Math.pow(x, 2)` is modelled as
`x * x`.) -/
def VARIANCE_SUM (values : List Value) : JNum :=
  let n := values.length
  let mean := JNum.div (SUM values) (.fin (n : ℚ))
  let sum := values.foldl
    (fun total v =>
      JNum.add total (JNum.mul (JNum.sub (toNumber v) mean) (JNum.sub (toNumber v) mean)))
    (.fin 0)
  JNum.sqrt (JNum.div sum (.fin (n : ℚ)))

/-- The keys of `STAT_FUNCTIONS` (csvdb.ts:1483). -/
def statFnNames : List String :=
  ["STDDEV_POP", "STDDEV_SAMP", "VAR_POP", "VAR_SAMP"]

/-- `STAT_FUNCTIONS` (csvdb.ts:1483), dispatched by name: each divides
`VARIANCE_SUM` by `n` or `n - 1`, the `STDDEV` forms under a square root. -/
def evalStatFn (fnName : String) (values : List Value) : Value :=
  let n : ℚ := (values.length : ℚ)
  if fnName = "STDDEV_POP" then .num (JNum.sqrt (JNum.div (VARIANCE_SUM values) (.fin n)))
  else if fnName = "STDDEV_SAMP" then
    .num (JNum.sqrt (JNum.div (VARIANCE_SUM values) (.fin (n - 1))))
  else if fnName = "VAR_POP" then .num (JNum.div (VARIANCE_SUM values) (.fin n))
  else if fnName = "VAR_SAMP" then .num (JNum.div (VARIANCE_SUM values) (.fin (n - 1)))
  else .undefined

/-- The builtin-name dispatch of `#mapSelectionToRow` (csvdb.ts:1065–1091):
`ROW_NUMBER` special case, then the aggregate registry, then — only when a
window spec is present — the window and position registries behind
`orderByCheck`, then the statistical registry, else a thrown `Bad Func`
error.  (The window/position name sets are disjoint from the others, so
splitting on the presence of the window spec first preserves the source's
branch order exactly.) -/
def evalBuiltin (fnName : String) (args : List String) (windowSpec : Option WindowSpec)
    (src : Option Row) (rows : List Row) : Except String Value :=
  if fnName = "ROW_NUMBER" then
    .ok (.num (.fin ((jsIndexOfOpt rows src + 1 : ℤ) : ℚ)))
  else if aggregateNames.contains fnName then
    let values := rows.map (fun row => Row.lookup row (args.headD ""))
    .ok (evalAggregate fnName values)
  else
    match windowSpec with
    | some ws =>
      if windowFnNames.contains fnName then do
        let _ ← orderByCheck ws fnName
        evalWindowFn fnName src rows args ws
      else if positionFnNames.contains fnName then do
        let _ ← orderByCheck ws fnName
        let values := rows.map (fun row => Row.lookup row (args.headD ""))
        .ok (evalPositionFn fnName src rows args values)
      else if statFnNames.contains fnName then
        let values := rows.map (fun row => Row.lookup row (args.headD ""))
        .ok (evalStatFn fnName values)
      else .error ("Bad Func: " ++ fnName)
    | none =>
      if statFnNames.contains fnName then
        let values := rows.map (fun row => Row.lookup row (args.headD ""))
        .ok (evalStatFn fnName values)
      else .error ("Bad Func: " ++ fnName)

/-- The function-or-call-string first component of the array column syntax
`[ColumnSpec, window]`. -/
inductive FnOrCall where
  | call (s : String)
  | func (f : Option Row → ℕ → List Row → Value)

/-- The second component of the array column syntax: a window name or an
inline window specification. -/
inductive WindowRef where
  | name (n : String)
  | spec (ws : WindowSpec)

/-- A `ColumnSpec` (types.d.ts): a string (field name or builtin call), a
row-mapping function, or the array (OVER) syntax. -/
inductive ColSpec where
  | str (s : String)
  | func (f : Option Row → ℕ → List Row → Value)
  | pair (c : FnOrCall) (w : WindowRef)

/-- A selection: ordered `(alias, ColumnSpec)` entries
(`Object.entries(selection)`). -/
abbrev Selection : Type := List (String × ColSpec)

/-- `this.#windowSpecs.get(name)` on the named-window table. -/
def lookupWindow (wspecs : List (String × WindowSpec)) (n : String) : Option WindowSpec :=
  match wspecs.find? (fun p => p.1 = n) with
  | some p => some p.2
  | none => none

/-- `Object.assign(out, r)` / the field-by-field copy used for `*` columns. -/
def objectAssign (out : Row) (r : Row) : Row :=
  r.foldl (fun o p => Row.setKey o p.1 p.2) out

/-- The window-resolution and function-evaluation tail of one column of
`#mapSelectionToRow` (csvdb.ts:1043–1091), shared by the string and array
column forms: resolve `windowName` (`"()"` is the empty spec, unknown names
are a thrown `Bad Window` error), narrow the row group through `applyWindow`,
then apply the direct function or dispatch the builtin name. -/
def evalColumnCore (wspecs : List (String × WindowSpec)) (src : Option Row)
    (index : ℕ) (grp : List Row) (out : Row) (colAlias : String)
    (fn : Option (Option Row → ℕ → List Row → Value))
    (fnName : Option String) (args : Option (List String))
    (windowName : Option String) (windowSpec0 : Option WindowSpec) :
    Except String Row := do
  let windowSpec ←
    match windowName with
    | some wn =>
      if wn = "()" then pure (some ({} : WindowSpec))
      else
        match lookupWindow wspecs wn with
        | some ws => pure (some ws)
        | none => Except.error ("Bad Window: " ++ wn)
    | none => pure windowSpec0
  let rows ←
    match windowSpec with
    | some ws => applyWindow grp ws src
    | none => pure grp
  match fn with
  | some f => pure (Row.setKey out colAlias (f src index rows))
  | none =>
    match fnName, args with
    | some n, some as => do
      let value ← evalBuiltin n as windowSpec src rows
      pure (Row.setKey out colAlias value)
    | _, _ => pure out

/-- One `(alias, col)` iteration of `#mapSelectionToRow` (csvdb.ts:987–1111).
Functions apply directly; array columns must parse as a call without an OVER
suffix (`Unexpected OVER` / `Bad Func` are thrown errors); strings are
builtin calls or otherwise plain field names, where `*` copies the whole
source row (alias-prefixing keys unless the colAlias is also `*`) and the copy
is skipped entirely when the source row is `undefined`. -/
def evalColumn (wspecs : List (String × WindowSpec)) (src : Option Row)
    (index : ℕ) (grp : List Row) (out : Row) (colAlias : String) (col : ColSpec) :
    Except String Row :=
  match col with
  | .func f => .ok (Row.setKey out colAlias (f src index grp))
  | .pair fnOrFnName windowNameOrSpec => do
    let (fn, fnName, args) ←
      match fnOrFnName with
      | .call fnString =>
        match parseCall fnString with
        | some (n, as, over) =>
          if over.isSome then Except.error "Unexpected OVER"
          else pure ((none : Option (Option Row → ℕ → List Row → Value)), some n, some as)
        | none => Except.error ("Bad Func: " ++ fnString)
      | .func f => pure (some f, (none : Option String), (none : Option (List String)))
    match windowNameOrSpec with
    | .name wn => evalColumnCore wspecs src index grp out colAlias fn fnName args (some wn) none
    | .spec ws => evalColumnCore wspecs src index grp out colAlias fn fnName args none (some ws)
  | .str s =>
    match parseCall s with
    | some (n, as, over) =>
      evalColumnCore wspecs src index grp out colAlias none (some n) (some as) over none
    | none =>
      match src with
      | some srcRow =>
        if s = "*" then
          if colAlias = "*" then .ok (objectAssign out srcRow)
          else .ok (srcRow.foldl (fun o p => Row.setKey o (colAlias ++ p.1) p.2) out)
        else .ok (Row.setKey out colAlias (Row.lookup srcRow s))
      | none => .ok out

/-- The column fold of `#mapSelectionToRow`, building the output row. -/
def evalColumns (wspecs : List (String × WindowSpec)) (src : Option Row)
    (index : ℕ) (grp : List Row) : List (String × ColSpec) → Row → Except String Row
  | [], out => .ok out
  | (colAlias, col) :: rest, out => do
    let out' ← evalColumn wspecs src index grp out colAlias col
    evalColumns wspecs src index grp rest out'

/-- `#mapSelectionToRow` (csvdb.ts:975): with no selection the source row is
returned as-is (the identity, no copy); the `none` source-row case cannot
reach this branch (a missing selection implies per-row or group iteration,
whose source rows exist) and is mapped to the empty row. -/
def mapSelectionToRow (wspecs : List (String × WindowSpec)) (src : Option Row)
    (selection : Option Selection) (index : ℕ) (groupRows : List Row) :
    Except String Row :=
  match selection with
  | none => .ok (src.getD default)
  | some sel => evalColumns wspecs src index groupRows sel []

/-- The query-builder state (csvdb.ts:223–242).  `limit = none` models the
default `Infinity`; the `where` predicate list is named `whereFns` (`where`
is reserved in Lean). -/
structure CSVDBQuery where
  rows : List Row
  join : List (Option Row → Option (List Row)) := []
  whereFns : List (Row → ℕ → Bool) := []
  groupBy : Option (Row → Value) := none
  selection : Option Selection := none
  sort : Option (Row → Row → JNum) := none
  windowSpecs : List (String × WindowSpec) := []
  offset : ℕ := 0
  limit : Option ℕ := none
  distinct : Bool := false

/-- The inner per-row loop of one join stage (csvdb.ts:865–868): each row is
fed to the stage and a falsy (`null`/`undefined`) result contributes no
rows. -/
def joinLoop (j : Option Row → Option (List Row)) : List Row → List Row
  | [] => []
  | r :: rest => ((j (some r)).getD []) ++ joinLoop j rest

/-- One join stage (csvdb.ts:862–875): all real rows in order, then exactly
one trailing `null` call whose results are appended last. -/
def joinStage (j : Option Row → Option (List Row)) (rows : List Row) : List Row :=
  joinLoop j rows ++ ((j none).getD [])

/-- The join-stage chain: the output row set of each stage becomes the input
row set of the next. -/
def runJoins : List (Option Row → Option (List Row)) → List Row → List Row
  | [], rows => rows
  | j :: js, rows => runJoins js (joinStage j rows)

/-- The `filter` generator (csvdb.ts:1238): the predicate also receives the
0-based index of the row within this filter stage's input. -/
def filterStage (p : Row → ℕ → Bool) (rows : List Row) : List Row :=
  (rows.enum.filter (fun pr => p pr.2 pr.1)).map Prod.snd

/-- The WHERE chain: predicates applied in registration order (an AND
chain). -/
def runWheres : List (Row → ℕ → Bool) → List Row → List Row
  | [], rows => rows
  | p :: ps, rows => runWheres ps (filterStage p rows)

/-- One row of `groupRows` (csvdb.ts:1209–1217): append the row to its
discriminator-keyed group, creating the group at the end on first sight of
the key. -/
def groupStep (d : Row → Value) (acc : List (Value × List Row)) (r : Row) :
    List (Value × List Row) :=
  let v := d r
  if acc.any (fun p => p.1 = v) then
    acc.map (fun p => if p.1 = v then (p.1, p.2 ++ [r]) else p)
  else acc ++ [(v, [r])]

/-- `groupRows` (csvdb.ts:1203): insertion-ordered grouping by discriminator
value. -/
def groupRowsFn (rows : List Row) (d : Row → Value) : List (List Row) :=
  (rows.foldl (groupStep d) ([] : List (Value × List Row))).map Prod.snd

/-- `#hasAggregates` (csvdb.ts:967): some selection column is a string
accepted by `isAggregate`. -/
def hasAggregates (selection : Option Selection) : Bool :=
  match selection with
  | none => false
  | some sel =>
    sel.any (fun p => match p.2 with | .str s => isAggregate s | _ => false)

/-- The window-function detection of `#iter` (csvdb.ts:892–899): a non-empty
named-window table, or a selection column that is a string ending in
`" OVER ()"` or uses the array syntax. -/
def haveWindowFns (q : CSVDBQuery) : Bool :=
  !q.windowSpecs.isEmpty ||
  (match q.selection with
   | none => false
   | some sel =>
     sel.any (fun p =>
       match p.2 with
       | .str s => jsEndsWith s " OVER ()"
       | .pair _ _ => true
       | _ => false))

/-- The grouping/materialisation decision of `#iter` (csvdb.ts:901–913),
expressed as `(sourceRow, rowGroup)` pairs: explicit groups (source row =
first of group), one implicit whole-set group for aggregates, per-row
iteration against the whole set for window functions, else per-row singleton
groups. -/
def groupingPairs (q : CSVDBQuery) (rows3 : List Row) : List (Option Row × List Row) :=
  match q.groupBy with
  | some d => (groupRowsFn rows3 d).map (fun g => (g.head?, g))
  | none =>
    if hasAggregates q.selection then [(rows3.head?, rows3)]
    else if haveWindowFns q then rows3.map (fun r => (some r, rows3))
    else rows3.map (fun r => (some r, [r]))

/-- The FETCH FIRST stop test (csvdb.ts:961): after incrementing the output
counter, stop when `i - offset >= limit`.  (In reachable states `limit ≥ 1`
here — `limit = 0` short-circuits the whole iteration — so the truncated
natural subtraction agrees with the JavaScript signed arithmetic.) -/
def stopLimit (offset : ℕ) (limit : Option ℕ) (i1 : ℕ) : Bool :=
  match limit with
  | none => false
  | some l => l ≤ i1 - offset

/-- The SELECT/DISTINCT/OFFSET/LIMIT loop of `#iter` (csvdb.ts:915–964):
duplicate results under `distinct` are skipped without consuming the output
counter; results are yielded only past the offset; the loop returns early
when the limit is reached. -/
def selectLoop (q : CSVDBQuery) :
    List (Option Row × List Row) → List Row → ℕ → Except String (List Row)
  | [], _, _ => .ok []
  | (src, grp) :: rest, cache, i => do
    let result ← mapSelectionToRow q.windowSpecs src q.selection (i + 1) grp
    if q.distinct && !isDistinct cache result then
      selectLoop q rest cache i
    else
      let cache' := if q.distinct then cache ++ [result] else cache
      let emitted := if q.offset ≤ i then [result] else []
      if stopLimit q.offset q.limit (i + 1) then .ok emitted
      else do
        let tail ← selectLoop q rest cache' (i + 1)
        .ok (emitted ++ tail)

/-- The ORDER BY stage (csvdb.ts:883–886): materialise and sort when a
comparator is set. -/
def sortStage (q : CSVDBQuery) (rows : List Row) : List Row :=
  match q.sort with
  | none => rows
  | some cmp => jsSort cmp rows

/-- The row set after the join, filter and sort stages of `#iter`. -/
def pipelineRows (q : CSVDBQuery) : List Row :=
  sortStage q (runWheres q.whereFns (runJoins q.join q.rows))

/-- `CSVDBQuery.#iter` (csvdb.ts:855–965): the staged execution — limit-0
short-circuit, joins, filters, sort, grouping decision, then the
selection/distinct/offset/limit loop. -/
def iterQuery (q : CSVDBQuery) : Except String (List Row) :=
  if q.limit = some 0 then .ok []
  else selectLoop q (groupingPairs q (pipelineRows q)) [] 0

instance {e a : Type} [DecidableEq e] [DecidableEq a] : DecidableEq (Except e a) := fun x y =>
  match x, y with
  | .ok u, .ok v =>
    match decEq u v with
    | isTrue h => isTrue (by rw [h])
    | isFalse h => isFalse (by intro hh; cases hh; exact h rfl)
  | .error u, .error v =>
    match decEq u v with
    | isTrue h => isTrue (by rw [h])
    | isFalse h => isFalse (by intro hh; cases hh; exact h rfl)
  | .ok _, .error _ => isFalse (by intro hh; cases hh)
  | .error _, .ok _ => isFalse (by intro hh; cases hh)

/-- The idealised real-number model of the statistical registry
(csvdb.ts:1476–1489), for the claims about exact arithmetic: IEEE doubles are
idealised as real numbers so that `Math.sqrt` is `Real.sqrt`.  The extracted
values are taken already coerced to numbers. -/
noncomputable def RealModel.SUM (values : List ℝ) : ℝ :=
  values.foldl (fun total v => total + v) 0

/-- `VARIANCE_SUM` (csvdb.ts:1476) over `ℝ`: two-pass mean then sum of
squared deviations, but the *returned* value is `Math.sqrt(sum / n)`
(`Math.pow(x, 2)` is `x ^ 2`). -/
noncomputable def RealModel.VARIANCE_SUM (values : List ℝ) : ℝ :=
  let n : ℝ := values.length
  let mean := RealModel.SUM values / n
  let sum := values.foldl (fun total v => total + (v - mean) ^ 2) 0
  Real.sqrt (sum / n)

/-- `STAT_FUNCTIONS.STDDEV_POP` (csvdb.ts:1484) over `ℝ`. -/
noncomputable def RealModel.STDDEV_POP (values : List ℝ) : ℝ :=
  Real.sqrt (RealModel.VARIANCE_SUM values / values.length)

/-- `STAT_FUNCTIONS.STDDEV_SAMP` (csvdb.ts:1485) over `ℝ`. -/
noncomputable def RealModel.STDDEV_SAMP (values : List ℝ) : ℝ :=
  Real.sqrt (RealModel.VARIANCE_SUM values / ((values.length : ℝ) - 1))

/-- `STAT_FUNCTIONS.VAR_POP` (csvdb.ts:1487) over `ℝ`. -/
noncomputable def RealModel.VAR_POP (values : List ℝ) : ℝ :=
  RealModel.VARIANCE_SUM values / values.length

/-- `STAT_FUNCTIONS.VAR_SAMP` (csvdb.ts:1488) over `ℝ`. -/
noncomputable def RealModel.VAR_SAMP (values : List ℝ) : ℝ :=
  RealModel.VARIANCE_SUM values / ((values.length : ℝ) - 1)

/-- The population variance the specification describes: the mean of squared
deviations from the mean (written with `List.sum`, independently of the
source's fold shape). -/
noncomputable def RealModel.popVariance (values : List ℝ) : ℝ :=
  ((values.map (fun v => (v - values.sum / (values.length : ℝ)) ^ 2)).sum) /
    (values.length : ℝ)

/-- The C1 scenario frame: four row identities (standing for the four
distinct JavaScript row objects), ordered ascending by their order key. -/
def scenarioFrame : List ℕ := [0, 1, 2, 3]

/-- The C1 scenario order keys `[2, 4, 4, 5]`. -/
def scenarioKey (n : ℕ) : ℚ := [2, 4, 4, 5].getD n 0

/-- The `+field`-style numeric ascending comparator over the scenario keys
(the comparator shape produced by `getOrderBy`). -/
def scenarioCmp (a b : ℕ) : JNum := .fin (scenarioKey a - scenarioKey b)

/-- A sample row for the set-algebra scenarios. -/
def xRow : Row := [("a", Value.str "1")]

/-- Distinct sample rows for the position-function scenarios. -/
def posRowA : Row := [("t", Value.str "1")]

/-- Second distinct sample row for the position-function scenarios. -/
def posRowB : Row := [("t", Value.str "2")]

/-- The extracted-value list for the position-function scenarios: a falsy `0`
then a truthy string. -/
def posValues : List Value := [Value.num (.fin 0), Value.str "y"]

/-- `joinLoop` is exactly one invocation per row, in order, concatenated. -/
theorem joinLoop_eq_bind (j : Option Row → Option (List Row)) (rows : List Row) :
    joinLoop j rows = (rows.map some).flatMap (fun c => (j c).getD []) := by
  induction rows with
  | nil => rfl
  | cons r rest ih => simp [joinLoop, ih]

/-- `isDistinct` is the negation of an `isSame` match in the cache. -/
theorem isDistinct_eq_not_any (B : List Row) (r : Row) :
    isDistinct B r = !(B.any fun b => isSame r b) := by
  induction B with
  | nil => rfl
  | cons b B ih => simp [isDistinct, List.any_cons] at ih ⊢; simp [ih]

/-- Rows yielded by the `except` loop never match the running cache. -/
theorem exceptLoop_not_isSame_cache :
    ∀ (A cache : List Row) (r : Row), r ∈ exceptLoop cache A →
      ∀ c ∈ cache, isSame r c = false := by
  intro A
  induction A with
  | nil => intro cache r hr; simp [exceptLoop] at hr
  | cons a A ih =>
    intro cache r hr c hc
    by_cases hka : isDistinct cache a = true
    · rw [exceptLoop, if_neg (by simp [hka])] at hr
      rcases List.mem_cons.mp hr with rfl | hr'
      · have hall : ∀ x ∈ cache, isSame r x = false := by simpa [isDistinct] using hka
        exact hall c hc
      · exact ih (cache ++ [a]) r hr' c (by simp [hc])
    · rw [exceptLoop, if_pos (by simpa using hka)] at hr
      exact ih cache r hr c hc

/-- Rows yielded by the `except` loop are pairwise non-matching. -/
theorem exceptLoop_pairwise :
    ∀ (A cache : List Row),
      (exceptLoop cache A).Pairwise (fun r s => isSame s r = false) := by
  intro A
  induction A with
  | nil => intro cache; simp [exceptLoop]
  | cons a A ih =>
    intro cache
    by_cases hka : isDistinct cache a = true
    · rw [exceptLoop, if_neg (by simp [hka])]
      refine List.Pairwise.cons ?_ (ih (cache ++ [a]))
      intro s hs
      exact exceptLoop_not_isSame_cache A (cache ++ [a]) s hs a (by simp)
    · rw [exceptLoop, if_pos (by simpa using hka)]
      exact ih cache

/-- Indexing into an empty value list is always `undefined`. -/
theorem jsGetIdxJ_nil (jn : JNum) : jsGetIdxJ [] jn = Value.undefined := by
  cases jn with
  | fin q =>
    show (if q.den = 1 ∧ 0 ≤ q.num ∧ q.num < (0 : ℤ) then _ else Value.undefined) = Value.undefined
    rw [if_neg]
    rintro ⟨-, h1, h2⟩
    omega
  | nan => rfl
  | negInf => rfl
  | posInf => rfl

/-- C2: on an empty extracted-value list the aggregate registry returns
sentinel values rather than throwing — `SUM` returns `0`, `MAX` returns
`-Infinity`, `MIN` returns `+Infinity` and `COUNT` returns `0`.  (No
exception: `evalAggregate` is a total `Value`-returning function, so the
embedding has no error case to raise.) -/
theorem C2_aggregate_empty_sentinels :
    evalAggregate "SUM" [] = Value.num (.fin 0)
    ∧ evalAggregate "MAX" [] = Value.num .negInf
    ∧ evalAggregate "MIN" [] = Value.num .posInf
    ∧ evalAggregate "COUNT" [] = Value.num (.fin 0) := by
  refine ⟨by decide, by decide, by decide, by decide⟩

/-- C3: a join stage is exactly one invocation per row of the current row
set, in order, followed by exactly one final invocation with `null` — the
call list is `rows.map some ++ [none]`, so the `null` call is last and never
interleaved — and the concatenation of all the calls' results (the
`null`-call's results appended last) is the stage's output; the output of
each stage is the input row set of the next stage. -/
theorem C3_join_stage_protocol :
    ∀ (j : Option Row → Option (List Row)) (js : List (Option Row → Option (List Row)))
      (rows : List Row),
      joinStage j rows = ((rows.map some) ++ [none]).flatMap (fun c => (j c).getD [])
      ∧ runJoins (j :: js) rows = runJoins js (joinStage j rows) := by
  intro j js rows
  refine ⟨?_, rfl⟩
  simp [joinStage, joinLoop_eq_bind]

/-- C7: `intersect(A, B)` yields exactly the rows of `A` matching something
in `B` — a filter of `A`, so duplicates in `A` all yield; in particular
`intersect([x,x],[x]) = [x,x]` while `intersect([x],[x,x]) = [x]`, exhibiting
the multiset-unaware asymmetry. -/
theorem C7_intersect_multiset :
    (∀ (A B : List Row), intersectFn A B = A.filter (fun r => B.any (fun b => isSame r b)))
    ∧ intersectFn [xRow, xRow] [xRow] = [xRow, xRow]
    ∧ intersectFn [xRow] [xRow, xRow] = [xRow] := by
  refine ⟨?_, by decide, by decide⟩
  intro A B
  induction A with
  | nil => rfl
  | cons a A ih =>
    show (if isDistinct B a then intersectFn A B else a :: intersectFn A B) = _
    rw [isDistinct_eq_not_any]
    cases h : B.any fun b => isSame a b <;> simp [h, ih, List.filter_cons]

/-- C8: no row yielded by `except(A, B)` matches any row of `B` (their
intersection is empty), and no two yielded rows match each other (`A`'s
internal duplicates are suppressed after the first occurrence). -/
theorem C8_except_disjoint_and_distinct :
    ∀ (A B : List Row),
      (∀ r ∈ exceptFn A B, ∀ b ∈ B, isSame r b = false)
      ∧ (exceptFn A B).Pairwise (fun r s => isSame s r = false) := by
  intro A B
  exact ⟨fun r hr => exceptLoop_not_isSame_cache A B r hr, exceptLoop_pairwise A B⟩

/-- Witness for C8 at a concrete input: `except([x], [x])` yields nothing
matching `[x]` and is pairwise non-matching. -/
theorem C8_except_disjoint_and_distinct_witness :
    (∀ r ∈ exceptFn [xRow] [xRow], ∀ b ∈ [xRow], isSame r b = false)
    ∧ (exceptFn [xRow] [xRow]).Pairwise (fun r s => isSame s r = false) :=
  C8_except_disjoint_and_distinct [xRow] [xRow]

/-- C5 counterexample: `FIRST_VALUE` of a falsy extracted value (the empty
string) returns that value, not `null`, and `LAST_VALUE` of an empty value
list returns `undefined`, not `null` — refuting the claim that every
position-family function yields `null` for falsy or out-of-bounds results. -/
theorem C5_position_null_counterexample :
    evalPositionFn "FIRST_VALUE" none [] ["a"] [Value.str ""] = Value.str ""
    ∧ Value.str "" ≠ Value.null
    ∧ evalPositionFn "LAST_VALUE" none [] ["a"] [] = Value.undefined
    ∧ Value.undefined ≠ Value.null := by
  refine ⟨by decide, by decide, ?_, by decide⟩
  show jsGetIdxJ [] (.fin (([] : List Value).length - 1 : ℚ)) = Value.undefined
  exact jsGetIdxJ_nil _

/-- C5 amended: `LEAD`, `LAG` and `NTH_VALUE` yield `null` for out-of-bounds
positions or falsy extracted values (always `null` over an empty value list),
and `LEAD`/`LAG` take an optional second numeric argument as the offset
(default `1`); but `FIRST_VALUE` and `LAST_VALUE` return the raw first/last
extracted value — a falsy value as-is and `undefined` (not `null`) on an
empty list.  Demonstrated over the ordered rows `posRowA, posRowB` with
extracted values `[0, "y"]`. -/
theorem C5_position_functions_amended :
    (∀ src rows args, evalPositionFn "LEAD" src rows args [] = Value.null)
    ∧ (∀ src rows args, evalPositionFn "LAG" src rows args [] = Value.null)
    ∧ (∀ src rows args, evalPositionFn "NTH_VALUE" src rows args [] = Value.null)
    ∧ (∀ a1 : String, leadLagDelta [a1] = .fin 1)
    ∧ (∀ a1 a2 : String, leadLagDelta [a1, a2] = jsStringToNumber a2)
    ∧ evalPositionFn "LEAD" (some posRowA) [posRowA, posRowB] ["t"] posValues = Value.str "y"
    ∧ evalPositionFn "LEAD" (some posRowB) [posRowA, posRowB] ["t"] posValues = Value.null
    ∧ evalPositionFn "LEAD" (some posRowA) [posRowA, posRowB] ["t", "0"] posValues = Value.null
    ∧ evalPositionFn "LAG" (some posRowB) [posRowA, posRowB] ["t"] posValues = Value.null
    ∧ evalPositionFn "FIRST_VALUE" (some posRowA) [posRowA, posRowB] ["t"] posValues
        = Value.num (.fin 0)
    ∧ evalPositionFn "LAST_VALUE" (some posRowA) [posRowA, posRowB] ["t"] posValues
        = Value.str "y"
    ∧ evalPositionFn "NTH_VALUE" (some posRowA) [posRowA, posRowB] ["t", "2"] posValues
        = Value.str "y"
    ∧ evalPositionFn "NTH_VALUE" (some posRowA) [posRowA, posRowB] ["t", "1"] posValues
        = Value.null
    ∧ evalPositionFn "NTH_VALUE" (some posRowA) [posRowA, posRowB] ["t", "5"] posValues
        = Value.null := by
  refine ⟨?_, ?_, ?_, ?_, ?_, ?_, ?_, ?_, ?_, ?_, ?_, ?_, ?_, ?_⟩
  · intro src rows args
    show Value.orNull (jsGetIdxJ [] _) = Value.null
    simp [jsGetIdxJ_nil, Value.orNull, Value.falsy]
  · intro src rows args
    show Value.orNull (jsGetIdxJ [] _) = Value.null
    simp [jsGetIdxJ_nil, Value.orNull, Value.falsy]
  · intro src rows args
    show Value.orNull (jsGetIdxJ [] _) = Value.null
    simp [jsGetIdxJ_nil, Value.orNull, Value.falsy]
  · intro a1; rfl
  · intro a1 a2; rfl
  · with_unfolding_all decide
  · with_unfolding_all decide
  · with_unfolding_all decide
  · with_unfolding_all decide
  · with_unfolding_all decide
  · with_unfolding_all decide
  · with_unfolding_all decide
  · with_unfolding_all decide
  · with_unfolding_all decide

/-- A fold accumulating `+ f v` is the sum of the mapped list. -/
theorem foldl_add_map (l : List ℝ) (a : ℝ) (f : ℝ → ℝ) :
    l.foldl (fun t v => t + f v) a = a + (l.map f).sum := by
  induction l generalizing a with
  | nil => simp
  | cons x xs ih => simp [ih]; ring

/-- A plain additive fold is the starting value plus the list sum. -/
theorem foldl_add_sum (l : List ℝ) (a : ℝ) :
    l.foldl (fun t v => t + v) a = a + l.sum := by
  induction l generalizing a with
  | nil => simp
  | cons x xs ih => simp [ih]; ring

/-- The source's `SUM` fold is `List.sum`. -/
theorem RealModel.SUM_eq (values : List ℝ) : RealModel.SUM values = values.sum := by
  simpa using foldl_add_sum values 0

/-- `VARIANCE_SUM` returns the square root of the two-pass population
variance — the population standard deviation, not the variance. -/
theorem RealModel.VARIANCE_SUM_eq (values : List ℝ) :
    RealModel.VARIANCE_SUM values = Real.sqrt (RealModel.popVariance values) := by
  show Real.sqrt _ = _
  rw [foldl_add_map values 0
    (fun v => (v - RealModel.SUM values / (values.length : ℝ)) ^ 2)]
  rw [RealModel.SUM_eq]
  simp [RealModel.popVariance]

/-- C4 counterexample: at the two-element input `[0, 2]` the population
variance (mean of squared deviations) is `1`, but `VAR_POP` returns `1/2` —
the code divides the *standard deviation* `√1 = 1` by `n` — so `VAR_POP` is
not the population variance; the executable embedding agrees
(`VAR_POP` over the extracted strings `"0", "2"` evaluates to `1/2`). -/
theorem C4_var_pop_counterexample :
    RealModel.VAR_POP [0, 2] = 1 / 2
    ∧ RealModel.popVariance [0, 2] = 1
    ∧ RealModel.VAR_POP [0, 2] ≠ RealModel.popVariance [0, 2]
    ∧ evalStatFn "VAR_POP" [Value.str "0", Value.str "2"] = Value.num (.fin (1 / 2)) := by
  have hpv : RealModel.popVariance [0, 2] = 1 := by
    simp [RealModel.popVariance]
    norm_num
  have hvp : RealModel.VAR_POP [0, 2] = 1 / 2 := by
    rw [RealModel.VAR_POP, RealModel.VARIANCE_SUM_eq, hpv]
    simp
  refine ⟨hvp, hpv, ?_, by with_unfolding_all decide⟩
  rw [hvp, hpv]
  norm_num

/-- C4 amended: for every non-empty list of numeric values, `VARIANCE_SUM`
returns the *square root* of the two-pass population variance (the population
standard deviation); `VAR_POP` and `VAR_SAMP` divide that square root by `n`
and `n - 1` respectively (they are not variances); and `STDDEV_POP` /
`STDDEV_SAMP` return the square roots of those quotients. -/
theorem C4_stat_functions_amended :
    ∀ values : List ℝ, values ≠ [] →
      RealModel.VARIANCE_SUM values = Real.sqrt (RealModel.popVariance values)
      ∧ RealModel.VAR_POP values
          = Real.sqrt (RealModel.popVariance values) / (values.length : ℝ)
      ∧ RealModel.VAR_SAMP values
          = Real.sqrt (RealModel.popVariance values) / ((values.length : ℝ) - 1)
      ∧ RealModel.STDDEV_POP values
          = Real.sqrt (Real.sqrt (RealModel.popVariance values) / (values.length : ℝ))
      ∧ RealModel.STDDEV_SAMP values
          = Real.sqrt (Real.sqrt (RealModel.popVariance values) / ((values.length : ℝ) - 1)) := by
  intro values _
  refine ⟨RealModel.VARIANCE_SUM_eq values, ?_, ?_, ?_, ?_⟩
  · rw [RealModel.VAR_POP, RealModel.VARIANCE_SUM_eq]
  · rw [RealModel.VAR_SAMP, RealModel.VARIANCE_SUM_eq]
  · rw [RealModel.STDDEV_POP, RealModel.VARIANCE_SUM_eq]
  · rw [RealModel.STDDEV_SAMP, RealModel.VARIANCE_SUM_eq]

/-- Witness for C4's amended theorem at the concrete input `[0, 2]`. -/
theorem C4_stat_functions_amended_witness :
    ([0, 2] : List ℝ) ≠ []
    ∧ (RealModel.VARIANCE_SUM [0, 2] = Real.sqrt (RealModel.popVariance [0, 2])
       ∧ RealModel.VAR_POP [0, 2]
           = Real.sqrt (RealModel.popVariance [0, 2]) / (([0, 2] : List ℝ).length : ℝ)
       ∧ RealModel.VAR_SAMP [0, 2]
           = Real.sqrt (RealModel.popVariance [0, 2]) / ((([0, 2] : List ℝ).length : ℝ) - 1)
       ∧ RealModel.STDDEV_POP [0, 2]
           = Real.sqrt (Real.sqrt (RealModel.popVariance [0, 2]) / (([0, 2] : List ℝ).length : ℝ))
       ∧ RealModel.STDDEV_SAMP [0, 2]
           = Real.sqrt (Real.sqrt (RealModel.popVariance [0, 2]) /
               ((([0, 2] : List ℝ).length : ℝ) - 1))) :=
  ⟨by simp, C4_stat_functions_amended [0, 2] (by simp)⟩

/-- The index of the first row whose key equals `v` (the first row of a tie
block). -/
def firstKeyIdx {α : Type} (key : α → ℚ) (v : ℚ) : List α → ℕ
  | [] => 0
  | r :: rest => if key r = v then 0 else firstKeyIdx key v rest + 1

/-- Positions before the first tie have a different key. -/
theorem firstKeyIdx_lt_ne {α : Type} [Inhabited α] (key : α → ℚ) (v : ℚ) :
    ∀ (rows : List α) (j : ℕ), j < firstKeyIdx key v rows →
      key (rows.getD j default) ≠ v := by
  intro rows
  induction rows with
  | nil => intro j h; simp [firstKeyIdx] at h
  | cons r rest ih =>
    intro j h
    by_cases hk : key r = v
    · simp [firstKeyIdx, hk] at h
    · cases j with
      | zero => simpa using hk
      | succ j =>
        rw [firstKeyIdx, if_neg hk] at h
        rw [List.getD_cons_succ]
        exact ih j (by omega)

/-- When the first tie position is in bounds, its key is `v`. -/
theorem firstKeyIdx_key {α : Type} [Inhabited α] (key : α → ℚ) (v : ℚ) :
    ∀ rows : List α, firstKeyIdx key v rows < rows.length →
      key (rows.getD (firstKeyIdx key v rows) default) = v := by
  intro rows
  induction rows with
  | nil => simp [firstKeyIdx]
  | cons r rest ih =>
    intro h
    by_cases hk : key r = v
    · rw [firstKeyIdx, if_pos hk]
      simpa using hk
    · rw [firstKeyIdx, if_neg hk] at h ⊢
      rw [List.getD_cons_succ]
      exact ih (by simpa using Nat.lt_of_succ_lt_succ h)

/-- The first tie position is at or before any position whose key is `v`. -/
theorem firstKeyIdx_le {α : Type} [Inhabited α] (key : α → ℚ) (v : ℚ)
    (rows : List α) (j : ℕ) (hkey : key (rows.getD j default) = v) :
    firstKeyIdx key v rows ≤ j := by
  by_contra h
  exact firstKeyIdx_lt_ne key v rows j (by omega) hkey

/-- The backward scan stops immediately at a non-tying position. -/
theorem tieScanBack_of_ne {α : Type} [Inhabited α] (cmp : α → α → JNum) (src : α)
    (rows : List α) (i : ℕ) (h : cmp (rows.getD i default) src ≠ .fin 0) :
    tieScanBack cmp src rows i = (i : Int) := by
  cases i with
  | zero => rw [tieScanBack, if_pos h]; simp
  | succ i =>
    rw [tieScanBack, if_pos h]
    push_cast
    ring

/-- Running the backward scan inside a tie block that starts at `first` stops
exactly at `first - 1`. -/
theorem tieScanBack_run {α : Type} [Inhabited α] (key : α → ℚ) (src : α)
    (rows : List α) (first : ℕ) :
    ∀ i, first ≤ i →
      (∀ j, first ≤ j → j ≤ i → key (rows.getD j default) = key src) →
      (∀ j, j < first → key (rows.getD j default) ≠ key src) →
      tieScanBack (fun a b => .fin (key a - key b)) src rows i = (first : Int) - 1 := by
  intro i
  induction i with
  | zero =>
    intro h0 htie _
    have hf0 : first = 0 := by omega
    subst hf0
    have hk : key (rows.getD 0 default) = key src := htie 0 le_rfl le_rfl
    rw [tieScanBack, if_neg (by rw [hk, sub_self]; simp)]
    norm_num
  | succ i ih =>
    intro hle htie hne
    have hk : key (rows.getD (i + 1) default) = key src := htie (i + 1) hle le_rfl
    rw [tieScanBack, if_neg (by rw [hk, sub_self]; simp)]
    by_cases hfi : first ≤ i
    · exact ih hfi (fun j h1 h2 => htie j h1 (by omega)) hne
    · have hfe : first = i + 1 := by omega
      have hne_i : key (rows.getD i default) ≠ key src := hne i (by omega)
      rw [tieScanBack_of_ne _ _ _ _ (by simpa [sub_eq_zero] using hne_i)]
      omega

/-- In a duplicate-free list (distinct JavaScript object references),
`indexOf` of the element at position `idx` is `idx`. -/
theorem jsIndexOf_getD_of_nodup {α : Type} [Inhabited α] [DecidableEq α] :
    ∀ rows : List α, rows.Nodup → ∀ idx : ℕ, idx < rows.length →
      jsIndexOf rows (rows.getD idx default) = (idx : Int) := by
  intro rows
  induction rows with
  | nil => intro _ idx h; simp at h
  | cons r rest ih =>
    intro hnd idx hlen
    cases idx with
    | zero => simp [jsIndexOf]
    | succ idx =>
      rw [List.getD_cons_succ]
      have hl : idx < rest.length := by simpa using Nat.lt_of_succ_lt_succ hlen
      have hx : rest.getD idx default ∈ rest := by
        rw [List.getD_eq_getElem rest default hl]
        exact List.getElem_mem hl
      have hr : r ≠ rest.getD idx default := by
        intro he
        rw [he] at hnd
        exact (List.nodup_cons.mp hnd).1 hx
      rw [jsIndexOf, if_neg hr, ih (List.nodup_cons.mp hnd).2 idx hl,
        if_neg (by omega)]
      push_cast
      ring

/-- C1: over the scenario frame ordered ascending with keys `[2, 4, 4, 5]`
and a full frame, `RANK` yields `[1, 2, 2, 4]`; and in general, for every
ordered frame (ascending keys, distinct row references) and source row, the
backward scan of `RANK` stops at the boundary just before the source row's
tie block and returns boundary + 2 — equivalently, every tie row shares the
rank `firstTieIndex + 1` of the first tied row. -/
theorem C1_rank_ties :
    (scenarioFrame.map (fun s => RANK (some s) scenarioFrame scenarioCmp) = [1, 2, 2, 4])
    ∧ ∀ {α : Type} [Inhabited α] [DecidableEq α] (key : α → ℚ) (rows : List α) (idx : ℕ),
        rows.Nodup → idx < rows.length →
        (∀ j, j < rows.length → ∀ i, i ≤ j →
          key (rows.getD i default) ≤ key (rows.getD j default)) →
        RANK (some (rows.getD idx default)) rows (fun a b => .fin (key a - key b))
          = (firstKeyIdx key (key (rows.getD idx default)) rows : Int) + 1 := by
  constructor
  · with_unfolding_all decide
  · intro α _ _ key rows idx hnd hidx hsorted
    set src := rows.getD idx default with hsrc
    set first := firstKeyIdx key (key src) rows with hfirst
    have hfle : first ≤ idx := firstKeyIdx_le key (key src) rows idx rfl
    have hflen : first < rows.length := lt_of_le_of_lt hfle hidx
    have hkf : key (rows.getD first default) = key src := firstKeyIdx_key key (key src) rows hflen
    have htie : ∀ j, first ≤ j → j ≤ idx → key (rows.getD j default) = key src := by
      intro j h1 h2
      have hub : key (rows.getD j default) ≤ key src :=
        hsorted idx hidx j h2
      have hlb : key (rows.getD first default) ≤ key (rows.getD j default) :=
        hsorted j (by omega) first h1
      rw [hkf] at hlb
      exact le_antisymm hub hlb
    have hne : ∀ j, j < first → key (rows.getD j default) ≠ key src :=
      fun j hj => firstKeyIdx_lt_ne key (key src) rows j hj
    show rankBoundary (some src) rows _ + 2 = _
    rw [rankBoundary, jsIndexOf_getD_of_nodup rows hnd idx hidx,
      if_neg (by omega)]
    have htn : ((idx : Int)).toNat = idx := by omega
    rw [htn, tieScanBack_run key src rows first idx hfle htie hne]
    ring

/-- Witness for C1 at the scenario frame and source row index `2` (the second
tied row): its rank is the first tied row's index + 1. -/
theorem C1_rank_ties_witness :
    scenarioFrame.Nodup ∧ (2 : ℕ) < scenarioFrame.length
    ∧ (∀ j, j < scenarioFrame.length → ∀ i, i ≤ j →
        scenarioKey (scenarioFrame.getD i default) ≤ scenarioKey (scenarioFrame.getD j default))
    ∧ RANK (some (scenarioFrame.getD 2 default)) scenarioFrame
        (fun a b => .fin (scenarioKey a - scenarioKey b))
        = (firstKeyIdx scenarioKey (scenarioKey (scenarioFrame.getD 2 default)) scenarioFrame : Int) + 1 :=
  ⟨by decide, by decide, by with_unfolding_all decide,
    C1_rank_ties.2 scenarioKey scenarioFrame 2 (by decide) (by decide)
      (by with_unfolding_all decide)⟩

/-- The empty window spec (`OVER ()`) applies no partition, sort or frame. -/
theorem applyWindow_empty (rows : List Row) (src : Option Row) :
    applyWindow rows {} src = .ok rows := rfl

/-- Dispatching any window-family or position-family builtin against a window
spec with no `orderBy` throws `ORDER BY required`. -/
theorem evalBuiltin_no_orderBy_error (fnName : String) (args : List String)
    (ws : WindowSpec) (src : Option Row) (rows : List Row)
    (hmem : (windowFnNames.contains fnName || positionFnNames.contains fnName) = true)
    (hob : ws.orderBy = none) :
    evalBuiltin fnName args (some ws) src rows
      = .error ("ORDER BY required: " ++ fnName) := by
  have hmem' : fnName ∈ windowFnNames ∨ fnName ∈ positionFnNames := by
    simpa using hmem
  have hnames : fnName = "RANK" ∨ fnName = "DENSE_RANK" ∨ fnName = "NTILE"
      ∨ fnName = "PERCENT_RANK" ∨ fnName = "CUME_DIST" ∨ fnName = "PERCENTILE_DIST"
      ∨ fnName = "PERCENTILE_CONT" ∨ fnName = "LEAD" ∨ fnName = "LAG"
      ∨ fnName = "FIRST_VALUE" ∨ fnName = "LAST_VALUE" ∨ fnName = "NTH_VALUE" := by
    rcases hmem' with h | h
    · simp [windowFnNames] at h
      tauto
    · simp [positionFnNames] at h
      tauto
  rcases hnames with rfl | rfl | rfl | rfl | rfl | rfl | rfl | rfl | rfl | rfl | rfl | rfl <;>
    simp [evalBuiltin, orderByCheck, hob, aggregateNames, windowFnNames, positionFnNames,
      Bind.bind, Except.bind]

/-- C6: invoking a rank-family (window) or position-family builtin whose
effective window spec lacks `orderBy` throws the `ORDER BY required`
configuration error instead of applying a default order or returning a value;
in particular a full selection evaluation of `"RANK() OVER ()"` (the empty
window spec) fails with that error. -/
theorem C6_orderby_required :
    (∀ (fnName : String) (args : List String) (ws : WindowSpec) (src : Option Row)
        (rows : List Row),
      (windowFnNames.contains fnName || positionFnNames.contains fnName) = true →
      ws.orderBy = none →
      evalBuiltin fnName args (some ws) src rows
        = .error ("ORDER BY required: " ++ fnName))
    ∧ ∀ (colAlias : String) (src : Option Row) (rows : List Row),
        mapSelectionToRow [] src (some [(colAlias, ColSpec.str "RANK() OVER ()")]) 1 rows
          = .error "ORDER BY required: RANK" := by
  constructor
  · exact fun fnName args ws src rows hmem hob =>
      evalBuiltin_no_orderBy_error fnName args ws src rows hmem hob
  · intro colAlias src rows
    have hp : parseCall "RANK() OVER ()" = some ("RANK", [""], some "()") := by decide
    have hcol : evalColumn [] src 1 rows [] colAlias (ColSpec.str "RANK() OVER ()")
        = .error "ORDER BY required: RANK" := by
      rw [evalColumn.eq_def]
      simp only [hp]
      show evalColumnCore [] src 1 rows [] colAlias none (some "RANK") (some [""])
        (some "()") none = _
      rw [evalColumnCore]
      simp [pure, Except.pure, applyWindow_empty,
        evalBuiltin_no_orderBy_error "RANK" [""] {} src rows (by decide) rfl,
        Bind.bind, Except.bind]
    simp [mapSelectionToRow, evalColumns, hcol, Bind.bind, Except.bind]

/-- Witness for C6: `RANK` with the empty window spec fails with the
configuration error. -/
theorem C6_orderby_required_witness :
    (windowFnNames.contains "RANK" || positionFnNames.contains "RANK") = true
    ∧ ({} : WindowSpec).orderBy = none
    ∧ evalBuiltin "RANK" [""] (some {}) none []
        = .error ("ORDER BY required: " ++ "RANK") :=
  ⟨by decide, rfl, C6_orderby_required.1 "RANK" [""] {} none [] (by decide) rfl⟩

/-- The specification-side evaluation shape for claim C9: each row mapped
through the selection evaluator with itself as a singleton row group
(1-based output indices), errors propagating. -/
def perRowEval (wspecs : List (String × WindowSpec)) (sel : Option Selection) :
    List Row → ℕ → Except String (List Row)
  | [], _ => .ok []
  | r :: rest, i => do
    let v ← mapSelectionToRow wspecs (some r) sel (i + 1) [r]
    let t ← perRowEval wspecs sel rest (i + 1)
    .ok (v :: t)

/-- With `distinct` off and no offset/limit, the select loop over per-row
singleton pairs is exactly the per-row evaluation. -/
theorem selectLoop_plain (q : CSVDBQuery) (hd : q.distinct = false)
    (ho : q.offset = 0) (hl : q.limit = none) :
    ∀ (rows : List Row) (cache : List Row) (i : ℕ),
      selectLoop q (rows.map (fun r => (some r, [r]))) cache i
        = perRowEval q.windowSpecs q.selection rows i := by
  intro rows
  induction rows with
  | nil => intro cache i; rfl
  | cons r rest ih =>
    intro cache i
    cases h : mapSelectionToRow q.windowSpecs (some r) q.selection (i + 1) [r] with
    | error e =>
      simp [selectLoop, perRowEval, h, Bind.bind, Except.bind]
    | ok v =>
      simp [selectLoop, perRowEval, h, hd, ho, hl, stopLimit, Bind.bind, Except.bind, ih]

/-- The C9 counterexample query: no `groupBy`, the single selection column
`"VAR_POP(a)"`, and one *registered but unused* named window. -/
def c9Query : CSVDBQuery :=
  { rows := [[("a", Value.str "1")], [("a", Value.str "2")]],
    selection := some [("v", ColSpec.str "VAR_POP(a)")],
    windowSpecs := [("w", {})] }

/-- C9 counterexample: with a registered named window the claim's conclusion
fails — `VAR_POP(a)` is evaluated per row over the *whole* materialised row
set (both outputs `1/4`), not over a singleton group (which would give `0`),
because the window-detection branch materialises the full set as every row's
group. -/
theorem C9_whole_set_counterexample :
    iterQuery c9Query
      = .ok [[("v", Value.num (.fin (1 / 4)))], [("v", Value.num (.fin (1 / 4)))]]
    ∧ perRowEval c9Query.windowSpecs c9Query.selection c9Query.rows 0
      = .ok [[("v", Value.num (.fin 0))], [("v", Value.num (.fin 0))]]
    ∧ iterQuery c9Query
      ≠ perRowEval c9Query.windowSpecs c9Query.selection c9Query.rows 0 := by
  refine ⟨?_, ?_, ?_⟩
  · with_unfolding_all decide
  · with_unfolding_all decide
  · with_unfolding_all decide

/-- C9 amended: underscore-bearing builtin names such as `VAR_POP(a)` and
`STDDEV_SAMP(a)` fail the A–Z-only aggregate-detection regex (while `SUM(a)`
passes), so — provided additionally that the query registers no named window
and no selection column uses a window form — no implicit whole-row-set group
is synthesized and every column is evaluated per row over a singleton group.
(Without the added proviso the conclusion fails; see the counterexample.) -/
theorem C9_underscore_no_implicit_group :
    (isAggregate "VAR_POP(a)" = false ∧ isAggregate "STDDEV_SAMP(a)" = false
      ∧ isAggregate "SUM(a)" = true)
    ∧ ∀ (q : CSVDBQuery) (sel : Selection),
        q.selection = some sel → q.groupBy = none → q.windowSpecs = [] →
        q.join = [] → q.whereFns = [] → q.sort = none →
        q.distinct = false → q.offset = 0 → q.limit = none →
        (∀ p ∈ sel, ∃ s, p.2 = ColSpec.str s ∧ isAggregate s = false
          ∧ jsEndsWith s " OVER ()" = false) →
        hasAggregates q.selection = false
        ∧ iterQuery q = perRowEval q.windowSpecs q.selection q.rows 0 := by
  refine ⟨⟨by decide, by decide, by decide⟩, ?_⟩
  intro q sel hsel hgb hws hj hw hs hd ho hl hcols
  have hagg : hasAggregates q.selection = false := by
    rw [hsel, hasAggregates]
    rw [List.any_eq_false]
    intro p hp
    obtain ⟨s, hps, hfa, _⟩ := hcols p hp
    rw [hps]
    simp [hfa]
  have hwin : haveWindowFns q = false := by
    rw [haveWindowFns, hws, hsel]
    simp only [List.isEmpty_nil, Bool.not_true, Bool.false_or]
    rw [List.any_eq_false]
    intro p hp
    obtain ⟨s, hps, _, hov⟩ := hcols p hp
    rw [hps]
    simp [hov]
  refine ⟨hagg, ?_⟩
  have hpr : pipelineRows q = q.rows := by
    rw [pipelineRows, hj, hw, sortStage, hs]
    rfl
  have hgp : groupingPairs q (pipelineRows q) = q.rows.map (fun r => (some r, [r])) := by
    rw [groupingPairs, hgb, hpr]
    simp [hagg, hwin]
  rw [iterQuery, if_neg (by rw [hl]; simp), hgp, selectLoop_plain q hd ho hl]

/-- The C9 witness query: same rows and selection, no windows at all. -/
def c9WitnessQuery : CSVDBQuery :=
  { rows := [[("a", Value.str "1")], [("a", Value.str "2")]],
    selection := some [("v", ColSpec.str "VAR_POP(a)")] }

/-- Witness for C9's amended theorem at a concrete query. -/
theorem C9_underscore_no_implicit_group_witness :
    hasAggregates c9WitnessQuery.selection = false
    ∧ iterQuery c9WitnessQuery
        = perRowEval c9WitnessQuery.windowSpecs c9WitnessQuery.selection c9WitnessQuery.rows 0 :=
  C9_underscore_no_implicit_group.2 c9WitnessQuery [("v", ColSpec.str "VAR_POP(a)")]
    rfl rfl rfl rfl rfl rfl rfl rfl rfl
    (by
      intro p hp
      simp only [List.mem_singleton] at hp
      subst hp
      exact ⟨"VAR_POP(a)", rfl, by decide, by decide⟩)

/-- A grouping step preserves "groups are non-empty with members from `S`". -/
theorem groupStep_inv (d : Row → Value) (S : List Row) (acc : List (Value × List Row))
    (r : Row) (hr : r ∈ S)
    (hacc : ∀ p ∈ acc, p.2 ≠ [] ∧ ∀ x ∈ p.2, x ∈ S) :
    ∀ p ∈ groupStep d acc r, p.2 ≠ [] ∧ ∀ x ∈ p.2, x ∈ S := by
  intro p hp
  rw [groupStep] at hp
  by_cases hc : acc.any (fun p => p.1 = d r)
  · rw [if_pos hc] at hp
    obtain ⟨q, hq, rfl⟩ := List.mem_map.mp hp
    by_cases hqv : q.1 = d r
    · rw [if_pos hqv]
      refine ⟨by simp [(hacc q hq).1], ?_⟩
      intro x hx
      rcases List.mem_append.mp hx with h | h
      · exact (hacc q hq).2 x h
      · rw [List.mem_singleton.mp h]; exact hr
    · rw [if_neg hqv]
      exact hacc q hq
  · rw [if_neg hc] at hp
    rcases List.mem_append.mp hp with h | h
    · exact hacc p h
    · rw [List.mem_singleton.mp h]
      exact ⟨by simp, fun x hx => by rw [List.mem_singleton.mp hx]; exact hr⟩

/-- The grouping fold preserves the invariant across all processed rows. -/
theorem foldl_groupStep_inv (d : Row → Value) (S : List Row) :
    ∀ (rows : List Row) (acc : List (Value × List Row)),
      (∀ r ∈ rows, r ∈ S) →
      (∀ p ∈ acc, p.2 ≠ [] ∧ ∀ x ∈ p.2, x ∈ S) →
      ∀ p ∈ rows.foldl (groupStep d) acc, p.2 ≠ [] ∧ ∀ x ∈ p.2, x ∈ S := by
  intro rows
  induction rows with
  | nil => intro acc _ hacc p hp; exact hacc p hp
  | cons r rest ih =>
    intro acc hrows hacc
    rw [List.foldl_cons]
    exact ih (groupStep d acc r) (fun x hx => hrows x (by simp [hx]))
      (groupStep_inv d S acc r (hrows r (by simp)) hacc)

/-- Every group produced by `groupRows` is non-empty and made of input
rows. -/
theorem groupRowsFn_inv (rows : List Row) (d : Row → Value) :
    ∀ g ∈ groupRowsFn rows d, g ≠ [] ∧ ∀ x ∈ g, x ∈ rows := by
  intro g hg
  obtain ⟨p, hp, rfl⟩ := List.mem_map.mp hg
  exact foldl_groupStep_inv d rows rows [] (fun _ h => h) (by simp) p hp

/-- With no selection, the select loop succeeds and yields only pair source
rows (the very rows, passed through the identity selection). -/
theorem selectLoop_none_src (q : CSVDBQuery) (hsel : q.selection = none) :
    ∀ (pairs : List (Option Row × List Row)) (cache : List Row) (i : ℕ),
      (∀ p ∈ pairs, ∃ r, p.1 = some r) →
      ∃ out, selectLoop q pairs cache i = .ok out
        ∧ ∀ x ∈ out, ∃ p ∈ pairs, p.1 = some x := by
  intro pairs
  induction pairs with
  | nil => exact fun cache i _ => ⟨[], rfl, by simp⟩
  | cons pr rest ih =>
    intro cache i hsrc
    obtain ⟨r, hr⟩ := hsrc pr (by simp)
    obtain ⟨src, grp⟩ := pr
    have hmap : mapSelectionToRow q.windowSpecs src q.selection (i + 1) grp = .ok r := by
      rw [hsel, mapSelectionToRow]
      simp only at hr
      rw [hr]
      rfl
    cases hskip : (q.distinct && !isDistinct cache r) with
    | true =>
      obtain ⟨out, hout, hmem⟩ := ih cache i (fun p hp => hsrc p (by simp [hp]))
      refine ⟨out, ?_, ?_⟩
      · simp [selectLoop, hmap, hskip, hout, Bind.bind, Except.bind]
      · intro x hx
        obtain ⟨p, hp, hpx⟩ := hmem x hx
        exact ⟨p, by simp [hp], hpx⟩
    | false =>
      have hemit : ∀ x ∈ (if q.offset ≤ i then [r] else ([] : List Row)), x = r := by
        split <;> simp
      cases hstop : stopLimit q.offset q.limit (i + 1) with
      | true =>
        refine ⟨if q.offset ≤ i then [r] else [], ?_, ?_⟩
        · simp [selectLoop, hmap, hskip, hstop, Bind.bind, Except.bind]
        · intro x hx
          rw [hemit x hx]
          exact ⟨(src, grp), by simp, hr⟩
      | false =>
        obtain ⟨out, hout, hmem⟩ :=
          ih (if q.distinct then cache ++ [r] else cache) (i + 1)
            (fun p hp => hsrc p (by simp [hp]))
        refine ⟨(if q.offset ≤ i then [r] else []) ++ out, ?_, ?_⟩
        · simp [selectLoop, hmap, hskip, hstop, hout, Bind.bind, Except.bind]
        · intro x hx
          rcases List.mem_append.mp hx with h | h
          · rw [hemit x h]
            exact ⟨(src, grp), by simp, hr⟩
          · obtain ⟨p, hp, hpx⟩ := hmem x h
            exact ⟨p, by simp [hp], hpx⟩

/-- C10: for every query on which `select()` was never called, iteration
succeeds and every yielded row is an element of the row set produced by the
preceding join/filter/sort stages — the selection evaluator returns the
source row itself (the same object, not a copy), so in JavaScript mutating a
yielded row mutates the underlying source row. -/
theorem C10_no_selection_identity :
    ∀ q : CSVDBQuery, q.selection = none →
      ∃ out, iterQuery q = .ok out ∧ ∀ x ∈ out, x ∈ pipelineRows q := by
  intro q hsel
  by_cases hlim : q.limit = some 0
  · refine ⟨[], by simp [iterQuery, hlim], by simp⟩
  · have hsrc : ∀ p ∈ groupingPairs q (pipelineRows q),
        ∃ r, p.1 = some r ∧ r ∈ pipelineRows q := by
      intro p hp
      rw [groupingPairs] at hp
      cases hgb : q.groupBy with
      | some d =>
        rw [hgb] at hp
        obtain ⟨g, hg, rfl⟩ := List.mem_map.mp hp
        obtain ⟨hne, hsub⟩ := groupRowsFn_inv (pipelineRows q) d g hg
        obtain ⟨h, t, rfl⟩ := List.exists_cons_of_ne_nil hne
        exact ⟨h, rfl, hsub h (by simp)⟩
      | none =>
        rw [hgb] at hp
        rw [hsel] at hp
        have : hasAggregates none = false := rfl
        rw [this] at hp
        simp only [Bool.false_eq_true, if_false] at hp
        by_cases hw : haveWindowFns q = true
        · rw [if_pos hw] at hp
          obtain ⟨r, hr, rfl⟩ := List.mem_map.mp hp
          exact ⟨r, rfl, hr⟩
        · rw [if_neg hw] at hp
          obtain ⟨r, hr, rfl⟩ := List.mem_map.mp hp
          exact ⟨r, rfl, hr⟩
    obtain ⟨out, hout, hmem⟩ :=
      selectLoop_none_src q hsel (groupingPairs q (pipelineRows q)) [] 0
        (fun p hp => ⟨(hsrc p hp).choose, (hsrc p hp).choose_spec.1⟩)
    refine ⟨out, ?_, ?_⟩
    · rw [iterQuery, if_neg hlim]
      exact hout
    · intro x hx
      obtain ⟨p, hp, hpx⟩ := hmem x hx
      obtain ⟨r, hr1, hr2⟩ := hsrc p hp
      rw [hr1] at hpx
      cases hpx
      exact hr2

/-- The C10 witness query: three rows, a filter, no selection. -/
def c10Query : CSVDBQuery :=
  { rows := [[("a", Value.str "1")], [("a", Value.str "2")], [("a", Value.str "3")]],
    whereFns := [fun row _ => !Value.strictEq (Row.lookup row "a") (Value.str "2")] }

/-- Witness for C10 at a concrete query. -/
theorem C10_no_selection_identity_witness :
    ∃ out, iterQuery c10Query = .ok out ∧ ∀ x ∈ out, x ∈ pipelineRows c10Query :=
  C10_no_selection_identity c10Query rfl

end Csvdb
